import Mathlib

/-!
Verification of the HLK-LD2451 radar protocol engine.

Shallow embedding of the frame-scanning, target-decoding and command-frame
building code found in `radar.py`, `radar_gui.py`, `radar_config_gui.py` and
`test.py`.  Bytes are modelled as `Nat` (the Python code indexes `bytes`
objects, whose elements are 0..255); buffers are `List Nat`.
-/

namespace HLK

/-- Data-frame header marker, `FRAME_HEADER = b"\xF4\xF3\xF2\xF1"`. -/
def FRAME_HEADER : List Nat := [0xF4, 0xF3, 0xF2, 0xF1]

/-- Data-frame tail marker, `FRAME_TAIL = b"\xF8\xF7\xF6\xF5"`. -/
def FRAME_TAIL : List Nat := [0xF8, 0xF7, 0xF6, 0xF5]

/-- Command-frame header marker `FD FC FB FA` (from the command hex strings). -/
def CMD_HEADER : List Nat := [0xFD, 0xFC, 0xFB, 0xFA]

/-- Command-frame tail marker `04 03 02 01` (from the command hex strings). -/
def CMD_TAIL : List Nat := [0x04, 0x03, 0x02, 0x01]

/-- Byte of a buffer at an index, 0 past the end (all code reads are guarded
by explicit length checks, so the default is never observable). -/
def byteAt (b : List Nat) (i : Nat) : Nat := b[i]?.getD 0

/-- Little-endian 16-bit value, as read by `struct.unpack("<H", ...)` /
`int.from_bytes(..., "little")`. -/
def le16 (lo hi : Nat) : Nat := lo + 256 * hi

/-- Leftmost occurrence of `pat` in a buffer: the model of Python
`bytes.find` (for the nonempty patterns used by the code). -/
def scan_marker (pat : List Nat) : List Nat → Option Nat
  | [] => none
  | x :: xs =>
    if (x :: xs).take pat.length = pat then some 0
    else (scan_marker pat xs).map (fun i => i + 1)

/-- `find_frame_start(buffer)` from `radar.py` / `radar_gui.py` /
`radar_config_gui.py`: `buffer.find(FRAME_HEADER)`, `None` if absent. -/
def find_frame_start (b : List Nat) : Option Nat := scan_marker FRAME_HEADER b

/-- One decoded target, the dictionary built by `parse_target_data`. -/
structure Target where
  angle : Int
  distance : Nat
  direction : String
  speed : Nat
  snr : Nat
deriving DecidableEq

/-- The 5-byte record decode inside `parse_target_data`'s loop body. -/
def mkTarget (fd : List Nat) (offset : Nat) : Target :=
  { angle := (byteAt fd offset : Int) - 0x80
    distance := byteAt fd (offset + 1)
    direction := if byteAt fd (offset + 2) = 0 then "approaching" else "away"
    speed := byteAt fd (offset + 3)
    snr := byteAt fd (offset + 4) }

/-- The `for _ in range(count)` loop of `parse_target_data`: decode up to
`n` records starting at `offset`, stopping when fewer than 5 bytes remain. -/
def parseRecords : Nat → Nat → List Nat → List Target
  | 0, _, _ => []
  | n + 1, offset, fd =>
    if fd.length < offset + 5 then []
    else mkTarget fd offset :: parseRecords n (offset + 5) fd

/-- `parse_target_data(frame_data)` from `radar.py` (identically duplicated
in `radar_gui.py`; `radar_config_gui.py` adds logging only). -/
def parse_target_data (fd : List Nat) : List Target :=
  if fd.length < 2 then [] else parseRecords (byteAt fd 0) 2 fd

/-- Checked variant of the record decode: every buffer read is `get?` and
any out-of-bounds access aborts with `none`.  Used to state that the code's
bounds guard keeps all reads in range. -/
def mkTargetChecked (fd : List Nat) (offset : Nat) : Option Target := do
  let b0 ← fd[offset]?
  let b1 ← fd[offset + 1]?
  let b2 ← fd[offset + 2]?
  let b3 ← fd[offset + 3]?
  let b4 ← fd[offset + 4]?
  pure { angle := (b0 : Int) - 0x80
         distance := b1
         direction := if b2 = 0 then "approaching" else "away"
         speed := b3
         snr := b4 }

/-- Checked variant of the record loop. -/
def parseRecordsChecked : Nat → Nat → List Nat → Option (List Target)
  | 0, _, _ => some []
  | n + 1, offset, fd =>
    if fd.length < offset + 5 then some []
    else do
      let t ← mkTargetChecked fd offset
      let ts ← parseRecordsChecked n (offset + 5) fd
      pure (t :: ts)

/-- Checked variant of `parse_target_data`. -/
def parse_target_data_checked (fd : List Nat) : Option (List Target) :=
  if fd.length < 2 then some [] else do
    let c ← fd[0]?
    parseRecordsChecked c 2 fd

-- Basic facts about `byteAt` and `mkTarget`.

theorem byteAt_eq_of_getElem? {fd : List Nat} {i x : Nat} (h : fd[i]? = some x) :
    byteAt fd i = x := by
  unfold byteAt
  rw [h]
  rfl

theorem getElem?_eq_some_byteAt {fd : List Nat} {i : Nat} (h : i < fd.length) :
    fd[i]? = some (byteAt fd i) := by
  unfold byteAt
  rw [List.getElem?_eq_getElem h]
  rfl

theorem mkTargetChecked_eq_of_lt {fd : List Nat} {offset : Nat}
    (h : offset + 5 ≤ fd.length) :
    mkTargetChecked fd offset = some (mkTarget fd offset) := by
  have h0 : offset < fd.length := by omega
  have h1 : offset + 1 < fd.length := by omega
  have h2 : offset + 2 < fd.length := by omega
  have h3 : offset + 3 < fd.length := by omega
  have h4 : offset + 4 < fd.length := by omega
  simp [mkTargetChecked, mkTarget, getElem?_eq_some_byteAt h0, getElem?_eq_some_byteAt h1,
        getElem?_eq_some_byteAt h2, getElem?_eq_some_byteAt h3, getElem?_eq_some_byteAt h4]

theorem parseRecordsChecked_eq (n : Nat) :
    ∀ offset fd, parseRecordsChecked n offset fd = some (parseRecords n offset fd) := by
  induction n with
  | zero => intro offset fd; simp [parseRecordsChecked, parseRecords]
  | succ n ih =>
    intro offset fd
    by_cases h : fd.length < offset + 5
    · simp [parseRecordsChecked, parseRecords, h]
    · have h' : offset + 5 ≤ fd.length := by omega
      simp [parseRecordsChecked, parseRecords, h, mkTargetChecked_eq_of_lt h', ih]

/-- Length of the record list: never more than the requested count, never
more than the records that fully fit after `offset`. -/
theorem parseRecords_length (n : Nat) :
    ∀ offset fd, (parseRecords n offset fd).length =
      min n ((fd.length - offset) / 5) := by
  induction n with
  | zero => intro offset fd; simp [parseRecords]
  | succ n ih =>
    intro offset fd
    by_cases h : fd.length < offset + 5
    · have : (fd.length - offset) / 5 = 0 := by
        apply Nat.div_eq_of_lt; omega
      simp [parseRecords, h, this]
    · have h5 : offset + 5 ≤ fd.length := by omega
      have hdiv : (fd.length - offset) / 5 = (fd.length - (offset + 5)) / 5 + 1 := by
        have : fd.length - offset = (fd.length - (offset + 5)) + 5 := by omega
        rw [this, Nat.add_div_right _ (by norm_num)]
      simp [parseRecords, h, ih, hdiv, Nat.succ_min_succ]

/-- Full characterization of the record loop: it returns exactly the
records at offsets `offset + 5*i` for `i` below the fitting count. -/
theorem parseRecords_eq_map (n : Nat) :
    ∀ offset fd, parseRecords n offset fd =
      (List.range (min n ((fd.length - offset) / 5))).map
        (fun i => mkTarget fd (offset + 5 * i)) := by
  induction n with
  | zero => intro offset fd; simp [parseRecords]
  | succ n ih =>
    intro offset fd
    by_cases h : fd.length < offset + 5
    · have : (fd.length - offset) / 5 = 0 := by
        apply Nat.div_eq_of_lt; omega
      simp [parseRecords, h, this]
    · have h5 : offset + 5 ≤ fd.length := by omega
      have hdiv : (fd.length - offset) / 5 = (fd.length - (offset + 5)) / 5 + 1 := by
        have : fd.length - offset = (fd.length - (offset + 5)) + 5 := by omega
        rw [this, Nat.add_div_right _ (by norm_num)]
      rw [parseRecords, if_neg h, ih, hdiv, Nat.succ_min_succ,
          List.range_succ_eq_map]
      simp only [List.map_cons, List.map_map, Nat.mul_zero, Nat.add_zero]
      congr 1
      apply List.map_congr_left
      intro i _
      simp only [Function.comp_apply]
      congr 1
      omega

/-- Declared payload length: the little-endian u16 at `s+4`, `s+5`,
`struct.unpack("<H", buffer[start_idx+4:start_idx+6])[0]`. -/
def declared_len (b : List Nat) (s : Nat) : Nat :=
  le16 (byteAt b (s + 4)) (byteAt b (s + 5))

/-- Total candidate span, `full_len = 4 + 2 + frame_length + 4`. -/
def full_len (b : List Nat) (s : Nat) : Nat := 4 + 2 + declared_len b s + 4

/-- Outcome of one pass of the `radar_reader` loop body over the buffer
(`radar.py` lines 106-138, identical in `radar_gui.py`). -/
inductive StepResult where
  | needMore : StepResult
  | resync : List Nat → StepResult
  | frame : List Nat → List Nat → StepResult
deriving DecidableEq

/-- One pass of the frame-extraction logic of `radar_reader`:
find the header, wait if incomplete, check the tail, then either accept the
candidate (consuming through its end) or drop through the match position. -/
def readerStep (b : List Nat) : StepResult :=
  match find_frame_start b with
  | none => .needMore
  | some s =>
    if b.length < s + 6 then .needMore
    else if b.length < s + full_len b s then .needMore
    else
      let f := (b.drop s).take (full_len b s)
      if f.drop (full_len b s - 4) = FRAME_TAIL then
        .frame f (b.drop (s + full_len b s))
      else
        .resync (b.drop (s + 1))

/-- The frame payload, `inner_data = frame[6:-4]`. -/
def inner_data (f : List Nat) : List Nat := (f.drop 6).take (f.length - 10)

-- `scan_marker` lemmas.

theorem scan_marker_some_occurs {pat : List Nat} :
    ∀ {b : List Nat} {s : Nat}, scan_marker pat b = some s →
      (b.drop s).take pat.length = pat := by
  intro b
  induction b with
  | nil => intro s h; simp [scan_marker] at h
  | cons x xs ih =>
    intro s h
    rw [scan_marker] at h
    by_cases hx : (x :: xs).take pat.length = pat
    · rw [if_pos hx] at h
      cases h
      simpa using hx
    · rw [if_neg hx] at h
      rcases Option.map_eq_some'.1 h with ⟨s', hs', rfl⟩
      simpa using ih hs'

theorem scan_marker_some_min {pat : List Nat} :
    ∀ {b : List Nat} {s : Nat}, scan_marker pat b = some s →
      ∀ j, j < s → (b.drop j).take pat.length ≠ pat := by
  intro b
  induction b with
  | nil => intro s h; simp [scan_marker] at h
  | cons x xs ih =>
    intro s h j hj
    rw [scan_marker] at h
    by_cases hx : (x :: xs).take pat.length = pat
    · rw [if_pos hx] at h; cases h; omega
    · rw [if_neg hx] at h
      rcases Option.map_eq_some'.1 h with ⟨s', hs', rfl⟩
      cases j with
      | zero => simpa using hx
      | succ j' =>
        have := ih hs' j' (by omega)
        simpa using this

theorem scan_marker_none {pat : List Nat} (hpat : pat ≠ []) :
    ∀ {b : List Nat}, scan_marker pat b = none →
      ∀ j, (b.drop j).take pat.length ≠ pat := by
  intro b
  induction b with
  | nil =>
    intro _ j
    simp only [List.drop_nil, List.take_nil]
    exact fun h => hpat h.symm
  | cons x xs ih =>
    intro h j
    rw [scan_marker] at h
    by_cases hx : (x :: xs).take pat.length = pat
    · rw [if_pos hx] at h; cases h
    · rw [if_neg hx] at h
      have hxs : scan_marker pat xs = none := by
        cases hmm : scan_marker pat xs with
        | none => rfl
        | some v => rw [hmm] at h; simp at h
      cases j with
      | zero => simpa using hx
      | succ j' => simpa using ih hxs j'

theorem take_eq_length_le {α : Type} {l pat : List α} (h : l.take pat.length = pat) :
    pat.length ≤ l.length := by
  have := congrArg List.length h
  rw [List.length_take] at this
  omega

/-- A found occurrence is stable under appending bytes on the right. -/
theorem scan_marker_append {pat : List Nat} :
    ∀ {b : List Nat} {s : Nat} (c : List Nat), scan_marker pat b = some s →
      scan_marker pat (b ++ c) = some s := by
  intro b
  induction b with
  | nil => intro s c h; simp [scan_marker] at h
  | cons x xs ih =>
    intro s c h
    rw [scan_marker] at h
    by_cases hx : (x :: xs).take pat.length = pat
    · rw [if_pos hx] at h
      cases h
      have hlen : pat.length ≤ (x :: xs).length := take_eq_length_le hx
      rw [List.cons_append, scan_marker, if_pos]
      rw [← List.cons_append, List.take_append_of_le_length hlen]
      exact hx
    · rw [if_neg hx] at h
      rcases Option.map_eq_some'.1 h with ⟨s', hs', rfl⟩
      have hocc := scan_marker_some_occurs hs'
      have hlen : pat.length ≤ xs.length - s' := by
        have := take_eq_length_le hocc
        rw [List.length_drop] at this
        exact this
      have hx' : ¬ ((x :: xs) ++ c).take pat.length = pat := by
        rw [List.cons_append, ← List.cons_append,
            List.take_append_of_le_length (by simp [List.length_cons]; omega)]
        exact hx
      rw [List.cons_append, scan_marker, ← List.cons_append, if_neg hx']
      rw [ih c hs']
      rfl

-- `readerStep` inversion and append-stability lemmas.

theorem byteAt_append {b c : List Nat} {i : Nat} (h : i < b.length) :
    byteAt (b ++ c) i = byteAt b i := by
  unfold byteAt
  rw [List.getElem?_append, if_pos h]

theorem declared_len_append {b c : List Nat} {s : Nat} (h : s + 6 ≤ b.length) :
    declared_len (b ++ c) s = declared_len b s := by
  unfold declared_len
  rw [byteAt_append (by omega), byteAt_append (by omega)]

theorem readerStep_resync_inv {b b' : List Nat} (h : readerStep b = .resync b') :
    ∃ s, find_frame_start b = some s ∧ s + 6 ≤ b.length ∧
      s + full_len b s ≤ b.length ∧
      ((b.drop s).take (full_len b s)).drop (full_len b s - 4) ≠ FRAME_TAIL ∧
      b' = b.drop (s + 1) := by
  unfold readerStep at h
  cases hf : find_frame_start b with
  | none => rw [hf] at h; cases h
  | some s =>
    rw [hf] at h
    dsimp only at h
    by_cases h1 : b.length < s + 6
    · rw [if_pos h1] at h; cases h
    · rw [if_neg h1] at h
      by_cases h2 : b.length < s + full_len b s
      · rw [if_pos h2] at h; cases h
      · rw [if_neg h2] at h
        by_cases h3 :
            ((b.drop s).take (full_len b s)).drop (full_len b s - 4) = FRAME_TAIL
        · rw [if_pos h3] at h; cases h
        · rw [if_neg h3] at h
          cases h
          exact ⟨s, rfl, by omega, by omega, h3, rfl⟩

theorem readerStep_frame_inv {b f b' : List Nat} (h : readerStep b = .frame f b') :
    ∃ s, find_frame_start b = some s ∧ s + 6 ≤ b.length ∧
      s + full_len b s ≤ b.length ∧
      f = (b.drop s).take (full_len b s) ∧
      f.drop (full_len b s - 4) = FRAME_TAIL ∧
      b' = b.drop (s + full_len b s) := by
  unfold readerStep at h
  cases hf : find_frame_start b with
  | none => rw [hf] at h; cases h
  | some s =>
    rw [hf] at h
    dsimp only at h
    by_cases h1 : b.length < s + 6
    · rw [if_pos h1] at h; cases h
    · rw [if_neg h1] at h
      by_cases h2 : b.length < s + full_len b s
      · rw [if_pos h2] at h; cases h
      · rw [if_neg h2] at h
        by_cases h3 :
            ((b.drop s).take (full_len b s)).drop (full_len b s - 4) = FRAME_TAIL
        · rw [if_pos h3] at h
          cases h
          exact ⟨s, rfl, by omega, by omega, rfl, h3, rfl⟩
        · rw [if_neg h3] at h; cases h

theorem readerStep_resync_length {b b' : List Nat} (h : readerStep b = .resync b') :
    b'.length < b.length := by
  rcases readerStep_resync_inv h with ⟨s, _, h6, _, _, rfl⟩
  rw [List.length_drop]
  omega

theorem readerStep_frame_length {b f b' : List Nat} (h : readerStep b = .frame f b') :
    b'.length < b.length := by
  rcases readerStep_frame_inv h with ⟨s, _, h6, hfull, _, _, rfl⟩
  rw [List.length_drop]
  have : 10 ≤ full_len b s := by unfold full_len; omega
  omega

/-- The accepted span and the leftover commute with appending more input. -/
theorem readerStep_append_frame {b f b' : List Nat} (c : List Nat)
    (h : readerStep b = .frame f b') : readerStep (b ++ c) = .frame f (b' ++ c) := by
  rcases readerStep_frame_inv h with ⟨s, hf, h6, hfull, hfeq, htail, rfl⟩
  subst hfeq
  have hd : declared_len (b ++ c) s = declared_len b s := declared_len_append h6
  have hfl : full_len (b ++ c) s = full_len b s := by
    unfold full_len; rw [hd]
  have hdrop : (b ++ c).drop s = b.drop s ++ c :=
    List.drop_append_of_le_length (by omega)
  unfold readerStep
  rw [find_frame_start, scan_marker_append c hf]
  dsimp only
  rw [hfl, hdrop]
  rw [if_neg (by rw [List.length_append]; omega)]
  rw [if_neg (by rw [List.length_append]; omega)]
  rw [List.take_append_of_le_length (by rw [List.length_drop]; omega)]
  rw [if_pos htail]
  rw [List.drop_append_of_le_length (by omega)]

/-- The one-byte resynchronization drop commutes with appending more input. -/
theorem readerStep_append_resync {b b' : List Nat} (c : List Nat)
    (h : readerStep b = .resync b') : readerStep (b ++ c) = .resync (b' ++ c) := by
  rcases readerStep_resync_inv h with ⟨s, hf, h6, hfull, htail, rfl⟩
  have hd : declared_len (b ++ c) s = declared_len b s := declared_len_append h6
  have hfl : full_len (b ++ c) s = full_len b s := by
    unfold full_len; rw [hd]
  have hdrop : (b ++ c).drop s = b.drop s ++ c :=
    List.drop_append_of_le_length (by omega)
  unfold readerStep
  rw [find_frame_start, scan_marker_append c hf]
  dsimp only
  rw [hfl, hdrop]
  rw [if_neg (by rw [List.length_append]; omega)]
  rw [if_neg (by rw [List.length_append]; omega)]
  rw [List.take_append_of_le_length (by rw [List.length_drop]; omega)]
  rw [if_neg htail]
  rw [List.drop_append_of_le_length (by omega)]

/-- Fuelled frame-extraction loop: run `readerStep` until it asks for more
bytes, collecting accepted frames in order; `fuel` bounds the iterations. -/
def extractLoop : Nat → List Nat → List (List Nat) × List Nat
  | 0, b => ([], b)
  | fuel + 1, b =>
    match readerStep b with
    | .needMore => ([], b)
    | .resync b' => extractLoop fuel b'
    | .frame f b' =>
      let p := extractLoop fuel b'
      (f :: p.1, p.2)

/-- All frames extractable from the current buffer (the cumulative effect of
the `radar_reader` loop on a fixed byte backlog): buffer length bounds the
number of steps, each of which consumes at least one byte. -/
def extractFrames (b : List Nat) : List (List Nat) × List Nat :=
  extractLoop b.length b

theorem extractLoop_congr :
    ∀ fuel₁ fuel₂ b, b.length ≤ fuel₁ → b.length ≤ fuel₂ →
      extractLoop fuel₁ b = extractLoop fuel₂ b := by
  intro fuel₁
  induction fuel₁ with
  | zero =>
    intro fuel₂ b hb₁ _
    have hb : b = [] := List.length_eq_zero.1 (by omega)
    subst hb
    cases fuel₂ with
    | zero => rfl
    | succ n => simp [extractLoop, readerStep, find_frame_start, scan_marker]
  | succ n ih =>
    intro fuel₂ b hb₁ hb₂
    cases fuel₂ with
    | zero =>
      have hb : b = [] := List.length_eq_zero.1 (by omega)
      subst hb
      simp [extractLoop, readerStep, find_frame_start, scan_marker]
    | succ m =>
      rw [extractLoop, extractLoop]
      cases hstep : readerStep b with
      | needMore => rfl
      | resync b' =>
        have := readerStep_resync_length hstep
        exact ih m b' (by omega) (by omega)
      | frame f b' =>
        have := readerStep_frame_length hstep
        exact congrArg (fun p => (f :: p.1, p.2)) (ih m b' (by omega) (by omega))

/-- Unfolding equation for `extractFrames`. -/
theorem extractFrames_eq (b : List Nat) :
    extractFrames b =
      match readerStep b with
      | .needMore => ([], b)
      | .resync b' => extractFrames b'
      | .frame f b' =>
        let p := extractFrames b'
        (f :: p.1, p.2) := by
  unfold extractFrames
  cases hstep : readerStep b with
  | needMore =>
    cases hb : b.length with
    | zero => rfl
    | succ n => rw [extractLoop, hstep]
  | resync b' =>
    have hlt := readerStep_resync_length hstep
    cases hb : b.length with
    | zero => omega
    | succ n =>
      rw [extractLoop, hstep]
      exact extractLoop_congr n b'.length b' (by omega) (by omega)
  | frame f b' =>
    have hlt := readerStep_frame_length hstep
    cases hb : b.length with
    | zero => omega
    | succ n =>
      rw [extractLoop, hstep]
      exact congrArg (fun p => (f :: p.1, p.2))
        (extractLoop_congr n b'.length b' (by omega) (by omega))

theorem extract_append_aux (c : List Nat) :
    ∀ n, ∀ b : List Nat, b.length ≤ n →
      extractFrames (b ++ c) =
        ((extractFrames b).1 ++ (extractFrames ((extractFrames b).2 ++ c)).1,
          (extractFrames ((extractFrames b).2 ++ c)).2) := by
  intro n
  induction n with
  | zero =>
    intro b hb
    have hnil : b = [] := List.length_eq_zero.1 (by omega)
    subst hnil
    simp [extractFrames, extractLoop]
  | succ m ih =>
    intro b hb
    cases hstep : readerStep b with
    | needMore =>
      have h1 : extractFrames b = ([], b) := by rw [extractFrames_eq, hstep]
      rw [h1]
      dsimp only
      rw [List.nil_append]
    | resync b' =>
      have hlt := readerStep_resync_length hstep
      have h1 : extractFrames b = extractFrames b' := by rw [extractFrames_eq, hstep]
      have h2 : extractFrames (b ++ c) = extractFrames (b' ++ c) := by
        rw [extractFrames_eq, readerStep_append_resync c hstep]
      rw [h1, h2]
      exact ih b' (by omega)
    | frame f b' =>
      have hlt := readerStep_frame_length hstep
      have h1 : extractFrames b = (f :: (extractFrames b').1, (extractFrames b').2) := by
        rw [extractFrames_eq, hstep]
      have h2 : extractFrames (b ++ c) =
          (f :: (extractFrames (b' ++ c)).1, (extractFrames (b' ++ c)).2) := by
        rw [extractFrames_eq, readerStep_append_frame c hstep]
      rw [h1, h2, ih b' (by omega)]
      simp

/-- Extraction over concatenated input decomposes into extraction over the
first part followed by extraction over its leftover plus the second part. -/
theorem extractFrames_append (b c : List Nat) :
    extractFrames (b ++ c) =
      ((extractFrames b).1 ++ (extractFrames ((extractFrames b).2 ++ c)).1,
        (extractFrames ((extractFrames b).2 ++ c)).2) :=
  extract_append_aux c b.length b le_rfl

theorem extractFrames_fixpoint_aux :
    ∀ n, ∀ b : List Nat, b.length ≤ n → readerStep (extractFrames b).2 = .needMore := by
  intro n
  induction n with
  | zero =>
    intro b hb
    have hnil : b = [] := List.length_eq_zero.1 (by omega)
    subst hnil
    rfl
  | succ m ih =>
    intro b hb
    cases hstep : readerStep b with
    | needMore =>
      have h1 : extractFrames b = ([], b) := by rw [extractFrames_eq, hstep]
      rw [h1]
      exact hstep
    | resync b' =>
      have hlt := readerStep_resync_length hstep
      have h1 : extractFrames b = extractFrames b' := by rw [extractFrames_eq, hstep]
      rw [h1]
      exact ih b' (by omega)
    | frame f b' =>
      have hlt := readerStep_frame_length hstep
      have h1 : extractFrames b = (f :: (extractFrames b').1, (extractFrames b').2) := by
        rw [extractFrames_eq, hstep]
      rw [h1]
      exact ih b' (by omega)

/-- The leftover buffer of an extraction is quiescent: one more pass asks
for more bytes. -/
theorem extractFrames_fixpoint (b : List Nat) :
    readerStep (extractFrames b).2 = .needMore :=
  extractFrames_fixpoint_aux b.length b le_rfl

/-- Feeding one chunk of freshly read serial bytes: append to the pending
buffer (`buffer.extend(data)`) and extract every now-complete frame. -/
def feedChunk (st : List (List Nat) × List Nat) (c : List Nat) :
    List (List Nat) × List Nat :=
  (st.1 ++ (extractFrames (st.2 ++ c)).1, (extractFrames (st.2 ++ c)).2)

/-- Feeding a sequence of chunks starting from an empty backlog. -/
def runChunks (cs : List (List Nat)) : List (List Nat) × List Nat :=
  cs.foldl feedChunk ([], [])

theorem runChunks_aux :
    ∀ (cs : List (List Nat)) (fs : List (List Nat)) (r : List Nat),
      readerStep r = .needMore →
      cs.foldl feedChunk (fs, r) =
        (fs ++ (extractFrames (r ++ cs.flatten)).1, (extractFrames (r ++ cs.flatten)).2) := by
  intro cs
  induction cs with
  | nil =>
    intro fs r hr
    have h1 : extractFrames r = ([], r) := by rw [extractFrames_eq, hr]
    simp [List.foldl, h1]
  | cons c cs ih =>
    intro fs r hr
    rw [List.foldl_cons]
    have hstep : feedChunk (fs, r) c =
        (fs ++ (extractFrames (r ++ c)).1, (extractFrames (r ++ c)).2) := rfl
    rw [hstep, ih _ _ (extractFrames_fixpoint (r ++ c))]
    have hjoin : r ++ (c :: cs).flatten = (r ++ c) ++ cs.flatten := by
      simp [List.flatten]
    rw [hjoin, extractFrames_append (r ++ c) cs.flatten]
    simp [List.append_assoc]

-- Command frames, as actually emitted by the code (`test.py` constants and
-- the hex-string builders in `radar_config_gui.py`).

/-- `ENABLE_CONFIG = bytes.fromhex("FD FC FB FA 04 00 FF 00 01 00 04 03 02 01")`. -/
def ENABLE_CONFIG : List Nat :=
  [0xFD, 0xFC, 0xFB, 0xFA, 0x04, 0x00, 0xFF, 0x00, 0x01, 0x00, 0x04, 0x03, 0x02, 0x01]

/-- `END_CONFIG = bytes.fromhex("FD FC FB FA 02 00 FE 00 04 03 02 01")`. -/
def END_CONFIG : List Nat :=
  [0xFD, 0xFC, 0xFB, 0xFA, 0x02, 0x00, 0xFE, 0x00, 0x04, 0x03, 0x02, 0x01]

/-- `READ_FIRMWARE = bytes.fromhex("FD FC FB FA 02 00 A0 00 04 03 02 01")`. -/
def READ_FIRMWARE : List Nat :=
  [0xFD, 0xFC, 0xFB, 0xFA, 0x02, 0x00, 0xA0, 0x00, 0x04, 0x03, 0x02, 0x01]

/-- The frame built by `send_sensitivity_config(snr_level)`:
`FD FC FB FA 06 00 03 00 02 {snrLevel} 00 00 04 03 02 01`. -/
def sensitivity_cmd (snr : Nat) : List Nat :=
  [0xFD, 0xFC, 0xFB, 0xFA, 0x06, 0x00, 0x03, 0x00, 0x02, snr, 0x00, 0x00,
   0x04, 0x03, 0x02, 0x01]

/-- The frame built by `send_detection_config(max_range, min_speed, delay_time)`:
`FD FC FB FA 06 00 02 00 {maxRange} 01 {minSpeed} {delayTime} 04 03 02 01`. -/
def detection_cmd (maxRange minSpeed delayTime : Nat) : List Nat :=
  [0xFD, 0xFC, 0xFB, 0xFA, 0x06, 0x00, 0x02, 0x00, maxRange, 0x01, minSpeed,
   delayTime, 0x04, 0x03, 0x02, 0x01]

/-- The frame built by `build_baud_cmd()`:
`FD FC FB FA 04 00 A1 00 {baud_code} 00 04 03 02 01`. -/
def baud_cmd (code : Nat) : List Nat :=
  [0xFD, 0xFC, 0xFB, 0xFA, 0x04, 0x00, 0xA1, 0x00, code, 0x00, 0x04, 0x03, 0x02, 0x01]

/-- The frame built by `build_output_cmd()`:
`FD FC FB FA 04 00 90 00 {flags} 00 04 03 02 01`. -/
def output_cmd (flags : Nat) : List Nat :=
  [0xFD, 0xFC, 0xFB, 0xFA, 0x04, 0x00, 0x90, 0x00, flags, 0x00, 0x04, 0x03, 0x02, 0x01]

/-- Little-endian u16 serialization. -/
def toLE16 (v : Nat) : List Nat := [v % 256, v / 256 % 256]

/-- Modelled from the spec: the claimed `CommandCodec.encode` contract —
`header(FD FC FB FA) ++ little_endian_u16(len(parameters)+2) ++ command_id
++ parameters ++ tail(04 03 02 01)`.  No general encode function exists in
the source; the code emits the concrete frames above. -/
def encode_claim (id : Nat) (params : List Nat) : List Nat :=
  CMD_HEADER ++ toLE16 (params.length + 2) ++ [id] ++ params ++ CMD_TAIL

/-- The shape the code's frames actually have: the length field counts the
command-id byte plus the parameter bytes, i.e. `len(parameters) + 1`. -/
def encode_cmd (id : Nat) (params : List Nat) : List Nat :=
  CMD_HEADER ++ toLE16 (params.length + 1) ++ [id] ++ params ++ CMD_TAIL

-- The response handling of `send_command` in `radar_config_gui.py`
-- (lines 413-456) and `decode_detection_response` (lines 224-276).

/-- The exact empty data frame `send_command` special-cases. -/
def EMPTY_DATA_FRAME : List Nat :=
  [0xF4, 0xF3, 0xF2, 0xF1, 0x00, 0x00, 0xF8, 0xF7, 0xF6, 0xF5]

/-- How `send_command` in `radar_config_gui.py` classifies the reply bytes:
empty, data-family streaming (returns before any command parsing), echo of
the sent bytes, or a candidate command reply handed to the ACK check and
optional decoder. -/
inductive RespClass where
  | noResponse : RespClass
  | streamingReply : Bool → RespClass
  | echoReply : RespClass
  | commandReply : RespClass
deriving DecidableEq

/-- Reply classification in `send_command` (`radar_config_gui.py` 415-436);
the `Bool` records which of the two streaming log branches fires
(`response == F4 F3 F2 F1 00 00 F8 F7 F6 F5` exactly). -/
def classify_response (sent resp : List Nat) : RespClass :=
  if resp = [] then .noResponse
  else if resp.take 4 = FRAME_HEADER then .streamingReply (resp = EMPTY_DATA_FRAME)
  else if resp = sent then .echoReply
  else .commandReply

/-- Result of `decode_detection_response` (`radar_config_gui.py` 224-276). -/
inductive DetResponse where
  | tooShort : DetResponse
  | streamingData : DetResponse
  | noCmdFrame : DetResponse
  | frameTooShort : DetResponse
  | wrongCmd : Nat → DetResponse
  | cmdFailed : Nat → DetResponse
  | dataIncomplete : DetResponse
  | detectionParams : Nat → Nat → Int → Int → DetResponse
deriving DecidableEq

/-- `decode_detection_response(response_bytes)`: reject short replies,
report data-family replies as the streaming condition, locate the command
header, and decode the detection-parameter payload. -/
def decode_detection_response (resp : List Nat) : DetResponse :=
  if resp.length < 10 then .tooShort
  else if resp.take 4 = FRAME_HEADER then .streamingData
  else
    match scan_marker CMD_HEADER resp with
    | none => .noCmdFrame
    | some cs =>
      if cs + 8 < resp.length then
        if byteAt resp (cs + 6) = 0x61 then
          if byteAt resp (cs + 7) = 0x01 then
            if cs + 14 ≤ resp.length then
              .detectionParams
                (le16 (byteAt resp (cs + 8)) (byteAt resp (cs + 9)))
                (le16 (byteAt resp (cs + 10)) (byteAt resp (cs + 11)))
                ((byteAt resp (cs + 12) : Int) - 60)
                ((byteAt resp (cs + 13) : Int) - 60)
            else .dataIncomplete
          else .cmdFailed (byteAt resp (cs + 7))
        else .wrongCmd (byteAt resp (cs + 6))
      else .frameTooShort

-- The live-data reader of `radar_config_gui.py` (`radar_data_reader`,
-- lines 142-196): same frame logic as `radar_reader` plus the no-header
-- buffer-trimming branch.

/-- Outcome of one pass of `radar_data_reader`'s buffer handling. -/
inductive CfgStep where
  | waitNoHeader : CfgStep
  | trimmed : List Nat → CfgStep
  | waitIncomplete : CfgStep
  | resync : List Nat → CfgStep
  | accepted : List Nat → List Nat → CfgStep
deriving DecidableEq

/-- One pass of `radar_data_reader` over the buffer: with no header found,
a buffer longer than 20 bytes is cut to its last 100 bytes
(`buffer = buffer[-100:]`); otherwise the frame logic of `radar_reader`. -/
def radar_data_reader_step (b : List Nat) : CfgStep :=
  match find_frame_start b with
  | none =>
    if 20 < b.length then .trimmed (b.drop (b.length - 100)) else .waitNoHeader
  | some s =>
    if b.length < s + 6 then .waitIncomplete
    else if b.length < s + full_len b s then .waitIncomplete
    else
      let f := (b.drop s).take (full_len b s)
      if f.drop (full_len b s - 4) = FRAME_TAIL then
        .accepted f (b.drop (s + full_len b s))
      else
        .resync (b.drop (s + 1))

-- Claim theorems.

/-- Claim C1, counterexample: the frame search does not look for the
Command-family marker.  A buffer that is exactly the Command header
`FD FC FB FA` contains an occurrence of one of the two family markers at
offset 0 (the claim requires the search to locate it), yet
`find_frame_start` returns `None`. -/
theorem C1_counterexample :
    find_frame_start [0xFD, 0xFC, 0xFB, 0xFA] = none ∧
    (([0xFD, 0xFC, 0xFB, 0xFA] : List Nat).drop 0).take 4 = CMD_HEADER := by
  decide

/-- Claim C1 (amended): the frame search locates the earliest occurrence of
the Data-family marker `F4 F3 F2 F1` only; the Command-family marker is not
searched.  If the Data marker does not occur in the buffer, no frame start
is returned. -/
theorem C1_data_header_only (b : List Nat) :
    (∀ s, find_frame_start b = some s →
      (b.drop s).take 4 = FRAME_HEADER ∧
      ∀ j, j < s → (b.drop j).take 4 ≠ FRAME_HEADER) ∧
    (find_frame_start b = none → ∀ j, (b.drop j).take 4 ≠ FRAME_HEADER) := by
  constructor
  · intro s hs
    exact ⟨scan_marker_some_occurs hs, scan_marker_some_min hs⟩
  · intro hn j
    exact scan_marker_none (by decide) hn j

/-- Witness for C1: on `[0x00, F4, F3, F2, F1]` the search returns offset 1,
where the Data header occurs, and no occurrence exists before it. -/
theorem C1_data_header_only_witness :
    (([0x00, 0xF4, 0xF3, 0xF2, 0xF1] : List Nat).drop 1).take 4 = FRAME_HEADER ∧
    (([0x00, 0xF4, 0xF3, 0xF2, 0xF1] : List Nat).drop 0).take 4 ≠ FRAME_HEADER := by
  have h := (C1_data_header_only [0x00, 0xF4, 0xF3, 0xF2, 0xF1]).1 1 (by decide)
  exact ⟨h.1, h.2 0 (by decide)⟩

/-- Claim C4: a 5-byte target record `[b0, b1, b2, b3, b4]` decodes to
`angle = b0 - 0x80` (signed), `distance = b1`, direction approaching
exactly when `b2 = 0` (any other value: away/receding), `speed = b3`,
`snr = b4`; in particular `[80 0A 00 05 1E]` gives angle 0, distance 10,
approaching, speed 5, snr 30, and `[70 03 01 02 0A]` gives angle -16,
receding. -/
theorem C4_target_record_decode :
    (∀ st b0 b1 b2 b3 b4 : Nat,
      parse_target_data [1, st, b0, b1, b2, b3, b4] =
        [{ angle := (b0 : Int) - 0x80, distance := b1,
           direction := if b2 = 0 then "approaching" else "away",
           speed := b3, snr := b4 }]) ∧
    parse_target_data [1, 0, 0x80, 0x0A, 0x00, 0x05, 0x1E] =
      [{ angle := 0, distance := 10, direction := "approaching",
         speed := 5, snr := 30 }] ∧
    parse_target_data [1, 0, 0x70, 0x03, 0x01, 0x02, 0x0A] =
      [{ angle := -16, distance := 3, direction := "away",
         speed := 2, snr := 10 }] :=
  ⟨fun _ _ _ _ _ _ => rfl, by decide, by decide⟩

/-- Claim C5: a payload shorter than 2 bytes decodes to the empty target
list (returned normally, not an error); otherwise byte 0 is the target
count and decoding returns exactly the records that both fit below the
count and fully fit in the remaining bytes — a trailing partial record is
dropped silently. -/
theorem C5_payload_decode :
    (∀ fd : List Nat, fd.length < 2 → parse_target_data fd = []) ∧
    (∀ fd : List Nat, 2 ≤ fd.length →
      parse_target_data fd =
        (List.range (min (byteAt fd 0) ((fd.length - 2) / 5))).map
          (fun i => mkTarget fd (2 + 5 * i))) := by
  constructor
  · intro fd h
    simp [parse_target_data, h]
  · intro fd h
    rw [parse_target_data, if_neg (by omega), parseRecords_eq_map]

/-- Witness for C5: a 1-byte payload gives `[]`; a 9-byte payload claiming
3 targets yields exactly the single fully-fitting record. -/
theorem C5_payload_decode_witness :
    parse_target_data [0x05] = [] ∧
    parse_target_data [3, 1, 0x80, 0x05, 0x00, 0x02, 0x09, 0x90, 0x07] =
      (List.range (min 3 1)).map
        (fun i => mkTarget [3, 1, 0x80, 0x05, 0x00, 0x02, 0x09, 0x90, 0x07] (2 + 5 * i)) := by
  refine ⟨C5_payload_decode.1 [0x05] (by decide), ?_⟩
  exact C5_payload_decode.2 [3, 1, 0x80, 0x05, 0x00, 0x02, 0x09, 0x90, 0x07] (by decide)

/-- Claim C10: `parse_target_data` is total — the checked decoder, whose
every buffer read aborts on an out-of-bounds index, never aborts and agrees
with it — and for a payload of at least 2 bytes the result length is
exactly `min(count_byte, (length - 2) / 5)`. -/
theorem C10_parse_total (fd : List Nat) :
    parse_target_data_checked fd = some (parse_target_data fd) ∧
    (2 ≤ fd.length →
      (parse_target_data fd).length = min (byteAt fd 0) ((fd.length - 2) / 5)) := by
  constructor
  · unfold parse_target_data_checked parse_target_data
    by_cases h : fd.length < 2
    · simp [h]
    · rw [if_neg h, if_neg h, getElem?_eq_some_byteAt (by omega)]
      simp [parseRecordsChecked_eq]
  · intro h
    rw [parse_target_data, if_neg (by omega), parseRecords_length]

/-- Witness for C10: a 7-byte payload claiming 2 targets decodes without
any out-of-bounds read, to exactly 1 target. -/
theorem C10_parse_total_witness :
    parse_target_data_checked [2, 0, 1, 2, 3, 4, 5] =
      some (parse_target_data [2, 0, 1, 2, 3, 4, 5]) ∧
    (parse_target_data [2, 0, 1, 2, 3, 4, 5]).length = min 2 1 := by
  have h := C10_parse_total [2, 0, 1, 2, 3, 4, 5]
  exact ⟨h.1, h.2 (by decide)⟩

/-- Claim C6, counterexample: the code's command frames do not carry a
length field equal to `len(parameters) + 2`.  The sensitivity frame for SNR
level 5 has command id `0x03` followed by parameter bytes
`00 02 05 00 00` before the tail, but its length field reads 6, not 7; it
matches `encode_cmd` (length `len+1`), not the claimed `encode_claim`. -/
theorem C6_counterexample :
    sensitivity_cmd 5 ≠ encode_claim 0x03 [0x00, 0x02, 0x05, 0x00, 0x00] ∧
    sensitivity_cmd 5 = encode_cmd 0x03 [0x00, 0x02, 0x05, 0x00, 0x00] ∧
    le16 (byteAt (sensitivity_cmd 5) 4) (byteAt (sensitivity_cmd 5) 5) = 6 ∧
    END_CONFIG ≠ encode_claim 0xFE [0x00] ∧
    le16 (byteAt END_CONFIG 4) (byteAt END_CONFIG 5) = 2 := by
  decide

/-- Claim C6 (amended): every command frame the code emits is
`FD FC FB FA ++ LE16(len(parameters)+1) ++ command_id ++ parameters ++
04 03 02 01`; the total length is `4+2+1+len(parameters)+4` and the length
field always equals `len(parameters) + 1` (it counts the command-id byte
and the parameter bytes, not two bytes beyond the parameters). -/
theorem C6_command_encoding :
    (∀ (id : Nat) (params : List Nat),
      (encode_cmd id params).length = 4 + 2 + 1 + params.length + 4) ∧
    (∀ (id : Nat) (params : List Nat), params.length + 1 < 65536 →
      le16 (byteAt (encode_cmd id params) 4) (byteAt (encode_cmd id params) 5) =
        params.length + 1) ∧
    ENABLE_CONFIG = encode_cmd 0xFF [0x00, 0x01, 0x00] ∧
    END_CONFIG = encode_cmd 0xFE [0x00] ∧
    READ_FIRMWARE = encode_cmd 0xA0 [0x00] ∧
    (∀ snr, sensitivity_cmd snr = encode_cmd 0x03 [0x00, 0x02, snr, 0x00, 0x00]) ∧
    (∀ mr ms dt, detection_cmd mr ms dt = encode_cmd 0x02 [0x00, mr, 0x01, ms, dt]) ∧
    (∀ code, baud_cmd code = encode_cmd 0xA1 [0x00, code, 0x00]) ∧
    (∀ flags, output_cmd flags = encode_cmd 0x90 [0x00, flags, 0x00]) := by
  refine ⟨?_, ?_, by rfl, by rfl, by rfl,
    fun snr => by simp [sensitivity_cmd, encode_cmd, CMD_HEADER, CMD_TAIL, toLE16],
    fun mr ms dt => by simp [detection_cmd, encode_cmd, CMD_HEADER, CMD_TAIL, toLE16],
    fun code => by simp [baud_cmd, encode_cmd, CMD_HEADER, CMD_TAIL, toLE16],
    fun flags => by simp [output_cmd, encode_cmd, CMD_HEADER, CMD_TAIL, toLE16]⟩
  · intro id params
    simp [encode_cmd, CMD_HEADER, CMD_TAIL, toLE16]
    omega
  · intro id params h
    have hbytes : encode_cmd id params =
        0xFD :: 0xFC :: 0xFB :: 0xFA :: ((params.length + 1) % 256) ::
          ((params.length + 1) / 256 % 256) :: id :: (params ++ CMD_TAIL) := rfl
    rw [hbytes]
    show le16 ((params.length + 1) % 256) ((params.length + 1) / 256 % 256) =
      params.length + 1
    unfold le16
    omega

/-- Witness for C6: the exit-configuration frame's length field evaluates
to `1 + 1 = 2` for its single parameter byte. -/
theorem C6_command_encoding_witness :
    le16 (byteAt (encode_cmd 0xFE [0x00]) 4) (byteAt (encode_cmd 0xFE [0x00]) 5) =
      1 + 1 :=
  C6_command_encoding.2.1 0xFE [0x00] (by decide)

-- A generic well-formed Data frame, for the resynchronization scenarios.

/-- A complete Data frame with length field `lo, hi` and payload `p`. -/
def mkDataFrame (lo hi : Nat) (p : List Nat) : List Nat :=
  FRAME_HEADER ++ lo :: hi :: (p ++ FRAME_TAIL)

theorem mkDataFrame_cons (lo hi : Nat) (p : List Nat) :
    mkDataFrame lo hi p =
      0xF4 :: 0xF3 :: 0xF2 :: 0xF1 :: lo :: hi :: (p ++ FRAME_TAIL) := rfl

theorem mkDataFrame_length (lo hi : Nat) (p : List Nat) :
    (mkDataFrame lo hi p).length = 10 + p.length := by
  simp [mkDataFrame, FRAME_HEADER, FRAME_TAIL]
  omega

theorem mkDataFrame_tail (lo hi : Nat) (p : List Nat) :
    (mkDataFrame lo hi p).drop (6 + p.length) = FRAME_TAIL := by
  rw [mkDataFrame_cons]
  rw [show (6 + p.length) = p.length + 5 + 1 from by omega]
  rw [List.drop_succ_cons]
  rw [show (p.length + 5) = p.length + 4 + 1 from by omega, List.drop_succ_cons]
  rw [show (p.length + 4) = p.length + 3 + 1 from by omega, List.drop_succ_cons]
  rw [show (p.length + 3) = p.length + 2 + 1 from by omega, List.drop_succ_cons]
  rw [show (p.length + 2) = p.length + 1 + 1 from by omega, List.drop_succ_cons]
  rw [List.drop_succ_cons]
  exact List.drop_left p FRAME_TAIL

theorem find_mkDataFrame (lo hi : Nat) (p : List Nat) :
    find_frame_start (mkDataFrame lo hi p) = some 0 := by
  rw [find_frame_start, mkDataFrame_cons, scan_marker, if_pos (by rfl)]

theorem readerStep_mkDataFrame (lo hi : Nat) (p : List Nat)
    (hlen : le16 lo hi = p.length) :
    readerStep (mkDataFrame lo hi p) = .frame (mkDataFrame lo hi p) [] := by
  have hlength := mkDataFrame_length lo hi p
  have hdecl : declared_len (mkDataFrame lo hi p) 0 = p.length := by
    have : declared_len (mkDataFrame lo hi p) 0 = le16 lo hi := by
      simp [declared_len, mkDataFrame, FRAME_HEADER, byteAt]
    rw [this, hlen]
  have hfull : full_len (mkDataFrame lo hi p) 0 = 10 + p.length := by
    unfold full_len
    rw [hdecl]
    omega
  have hnil : (mkDataFrame lo hi p).drop (0 + (10 + p.length)) = [] :=
    List.drop_eq_nil_of_le (by rw [hlength]; omega)
  unfold readerStep
  rw [find_mkDataFrame]
  dsimp only
  rw [hfull]
  rw [if_neg (by rw [hlength]; omega)]
  rw [if_neg (by rw [hlength]; omega)]
  rw [List.drop_zero, List.take_of_length_le (by rw [hlength])]
  rw [if_pos (by rw [show 10 + p.length - 4 = 6 + p.length from by omega]; exact mkDataFrame_tail lo hi p)]
  rw [hnil]

theorem find_noise_mkDataFrame (noise lo hi : Nat) (p : List Nat) :
    find_frame_start (noise :: mkDataFrame lo hi p) = some 1 := by
  rw [find_frame_start, mkDataFrame_cons, scan_marker]
  rw [if_neg (by simp [FRAME_HEADER])]
  rw [show scan_marker FRAME_HEADER
      (0xF4 :: 0xF3 :: 0xF2 :: 0xF1 :: lo :: hi :: (p ++ FRAME_TAIL)) = some 0 from by
    rw [scan_marker, if_pos (by rfl)]]
  rfl

theorem readerStep_noise_mkDataFrame (noise lo hi : Nat) (p : List Nat)
    (hlen : le16 lo hi = p.length) :
    readerStep (noise :: mkDataFrame lo hi p) = .frame (mkDataFrame lo hi p) [] := by
  have hlength := mkDataFrame_length lo hi p
  have hdecl : declared_len (noise :: mkDataFrame lo hi p) 1 = p.length := by
    have : declared_len (noise :: mkDataFrame lo hi p) 1 = le16 lo hi := by
      simp [declared_len, mkDataFrame, FRAME_HEADER, byteAt]
    rw [this, hlen]
  have hfull : full_len (noise :: mkDataFrame lo hi p) 1 = 10 + p.length := by
    unfold full_len
    rw [hdecl]
    omega
  have hclen : (noise :: mkDataFrame lo hi p).length = 11 + p.length := by
    rw [List.length_cons, hlength]
    omega
  have hnil : (noise :: mkDataFrame lo hi p).drop (1 + (10 + p.length)) = [] :=
    List.drop_eq_nil_of_le (by rw [hclen]; omega)
  unfold readerStep
  rw [find_noise_mkDataFrame]
  dsimp only
  rw [hfull]
  rw [if_neg (by rw [hclen]; omega)]
  rw [if_neg (by rw [hclen]; omega)]
  rw [show (noise :: mkDataFrame lo hi p).drop 1 = mkDataFrame lo hi p from rfl]
  rw [List.take_of_length_le (by rw [hlength])]
  rw [if_pos (by rw [show 10 + p.length - 4 = 6 + p.length from by omega]; exact mkDataFrame_tail lo hi p)]
  rw [hnil]

/-- Claim C2, counterexample: on acceptance the code consumes
`buffer[start_idx + full_len:]`, i.e. the candidate span plus every byte
before the match.  With one noise byte before a complete 10-byte frame, 11
bytes are consumed while the candidate span is 10. -/
theorem C2_counterexample :
    readerStep [0x00, 0xF4, 0xF3, 0xF2, 0xF1, 0x00, 0x00, 0xF8, 0xF7, 0xF6, 0xF5] =
      .frame [0xF4, 0xF3, 0xF2, 0xF1, 0x00, 0x00, 0xF8, 0xF7, 0xF6, 0xF5] [] ∧
    full_len [0x00, 0xF4, 0xF3, 0xF2, 0xF1, 0x00, 0x00, 0xF8, 0xF7, 0xF6, 0xF5] 1 = 10 ∧
    ([0x00, 0xF4, 0xF3, 0xF2, 0xF1, 0x00, 0x00, 0xF8, 0xF7, 0xF6, 0xF5] : List Nat).length -
      ([] : List Nat).length = 11 := by
  decide

/-- Claim C2 (amended): for a header match at `s` with at least 6 bytes
from `s`, the candidate span is `total_length = 4 + 2 + declared + 4` with
`declared` the little-endian u16 at `s+4`, `s+5`; with fewer than
`total_length` bytes from `s` nothing is consumed and no frame is returned;
on acceptance the candidate span *plus the `s` bytes preceding the match*
are consumed, and the payload is the bytes strictly between the length
field and the tail, so its length equals the declared length. -/
theorem C2_span_and_payload (b : List Nat) (s : Nat)
    (hs : find_frame_start b = some s) (h6 : s + 6 ≤ b.length) :
    full_len b s = 4 + 2 + declared_len b s + 4 ∧
    (b.length < s + full_len b s → readerStep b = .needMore) ∧
    (∀ f b', readerStep b = .frame f b' →
      f = (b.drop s).take (full_len b s) ∧
      f.length = full_len b s ∧
      b' = b.drop (s + full_len b s) ∧
      (inner_data f).length = declared_len b s) := by
  refine ⟨rfl, ?_, ?_⟩
  · intro hshort
    unfold readerStep
    rw [hs]
    dsimp only
    rw [if_neg (by omega), if_pos hshort]
  · intro f b' hstep
    rcases readerStep_frame_inv hstep with ⟨s', hs', h6', hfull', hfeq, htail, hb'⟩
    rw [hs] at hs'
    cases hs'
    have hflen : f.length = full_len b s := by
      rw [hfeq, List.length_take, List.length_drop]
      omega
    refine ⟨hfeq, hflen, hb', ?_⟩
    have h10 : 10 ≤ full_len b s := by unfold full_len; omega
    rw [inner_data, List.length_take, List.length_drop, hflen]
    unfold full_len at h10 ⊢
    omega

/-- Witness for C2: a noise byte followed by a complete frame with declared
length 2; the accepted payload has length 2 = declared length. -/
theorem C2_span_and_payload_witness :
    (inner_data [0xF4, 0xF3, 0xF2, 0xF1, 0x02, 0x00, 0xAA, 0xBB, 0xF8, 0xF7, 0xF6, 0xF5]).length =
      declared_len [0x00, 0xF4, 0xF3, 0xF2, 0xF1, 0x02, 0x00, 0xAA, 0xBB, 0xF8, 0xF7, 0xF6, 0xF5] 1 := by
  have h := (C2_span_and_payload
      [0x00, 0xF4, 0xF3, 0xF2, 0xF1, 0x02, 0x00, 0xAA, 0xBB, 0xF8, 0xF7, 0xF6, 0xF5] 1
      (by decide) (by decide)).2.2
      [0xF4, 0xF3, 0xF2, 0xF1, 0x02, 0x00, 0xAA, 0xBB, 0xF8, 0xF7, 0xF6, 0xF5] []
      (by decide)
  exact h.2.2.2

/-- Claim C3, counterexample: on a tail-marker mismatch the code consumes
`buffer[start_idx + 1:]` — the byte at the match position *and* every byte
preceding it.  With one noise byte before a corrupted-tail candidate, two
bytes are discarded, not exactly one. -/
theorem C3_counterexample :
    readerStep [0x00, 0xF4, 0xF3, 0xF2, 0xF1, 0x00, 0x00, 0xF8, 0xF7, 0xF6, 0x00] =
      .resync [0xF3, 0xF2, 0xF1, 0x00, 0x00, 0xF8, 0xF7, 0xF6, 0x00] ∧
    ([0x00, 0xF4, 0xF3, 0xF2, 0xF1, 0x00, 0x00, 0xF8, 0xF7, 0xF6, 0x00] : List Nat).length -
      ([0xF3, 0xF2, 0xF1, 0x00, 0x00, 0xF8, 0xF7, 0xF6, 0x00] : List Nat).length = 2 := by
  decide

/-- Claim C3 (amended): when a complete candidate fails the tail check, the
buffer is cut to `buffer[s+1:]` — the byte at the match position together
with the `s` header-free bytes before it, `s + 1` bytes in all — and the
search retries.  Consequently one noise byte followed by a complete valid
Data frame yields exactly that frame with the noise discarded, and a
corrupted-tail frame followed by a valid frame still yields the valid
frame. -/
theorem C3_resync_discard :
    (∀ (b : List Nat) (s : Nat) (b' : List Nat), readerStep b = .resync b' →
      find_frame_start b = some s →
      b' = b.drop (s + 1) ∧ b.length - b'.length = s + 1) ∧
    (∀ (noise lo hi : Nat) (p : List Nat), le16 lo hi = p.length →
      extractFrames (noise :: mkDataFrame lo hi p) = ([mkDataFrame lo hi p], [])) ∧
    extractFrames
        ([0xF4, 0xF3, 0xF2, 0xF1, 0x02, 0x00, 0x11, 0x22, 0xF8, 0xF7, 0xF6, 0x00] ++
          [0xF4, 0xF3, 0xF2, 0xF1, 0x01, 0x00, 0xCC, 0xF8, 0xF7, 0xF6, 0xF5]) =
      ([[0xF4, 0xF3, 0xF2, 0xF1, 0x01, 0x00, 0xCC, 0xF8, 0xF7, 0xF6, 0xF5]], []) := by
  refine ⟨?_, ?_, by decide⟩
  · intro b s b' hstep hs
    rcases readerStep_resync_inv hstep with ⟨s', hs', h6', hfull', htail', hb'⟩
    rw [hs] at hs'
    cases hs'
    refine ⟨hb', ?_⟩
    rw [hb', List.length_drop]
    omega
  · intro noise lo hi p hlen
    rw [extractFrames_eq, readerStep_noise_mkDataFrame noise lo hi p hlen]
    rfl

/-- Witness for C3: concrete resync (two leading junk bytes, corrupt tail)
and concrete noise-then-valid-frame extraction. -/
theorem C3_resync_discard_witness :
    ([0x07, 0xF4, 0xF3, 0xF2, 0xF1, 0x00, 0x00, 0xF8, 0xF7, 0xF6, 0x00] : List Nat).length -
      (([0x07, 0xF4, 0xF3, 0xF2, 0xF1, 0x00, 0x00, 0xF8, 0xF7, 0xF6, 0x00] : List Nat).drop
        (1 + 1)).length = 1 + 1 ∧
    extractFrames (0x31 :: mkDataFrame 0x01 0x00 [0xAB]) = ([mkDataFrame 0x01 0x00 [0xAB]], []) := by
  constructor
  · have h := C3_resync_discard.1
      [0x07, 0xF4, 0xF3, 0xF2, 0xF1, 0x00, 0x00, 0xF8, 0xF7, 0xF6, 0x00] 1
      ([0x07, 0xF4, 0xF3, 0xF2, 0xF1, 0x00, 0x00, 0xF8, 0xF7, 0xF6, 0x00].drop 2)
      (by decide) (by decide)
    exact h.2
  · exact C3_resync_discard.2.1 0x31 0x01 0x00 [0xAB] (by decide)

/-- Claim C7: feeding any byte sequence to the frame-extraction engine in
chunks — in any split, including one byte at a time — produces exactly the
same decoded frame sequence (and leftover buffer) as feeding all the bytes
in a single call. -/
theorem C7_chunking_invariance (cs : List (List Nat)) :
    runChunks cs = extractFrames cs.flatten := by
  unfold runChunks
  rw [runChunks_aux cs [] [] rfl]
  simp

/-- Claim C8: a reply that begins with the Data-family header `F4 F3 F2 F1`
is classified by `send_command` as the distinct device-still-streaming
condition (never as a command reply, so it is never handed to the ACK check
or a response decoder), and `decode_detection_response` likewise reports it
as the streaming condition (or the too-short condition for a truncated
reply), never as a parsed command response. -/
theorem C8_streaming_reply_detected (sent resp : List Nat)
    (h : resp.take 4 = FRAME_HEADER) :
    classify_response sent resp = .streamingReply (decide (resp = EMPTY_DATA_FRAME)) ∧
    classify_response sent resp ≠ .commandReply ∧
    (10 ≤ resp.length → decode_detection_response resp = .streamingData) ∧
    (resp.length < 10 → decode_detection_response resp = .tooShort) := by
  have hne : resp ≠ [] := by
    intro hnil
    rw [hnil] at h
    exact absurd h (by decide)
  have hcls : classify_response sent resp =
      .streamingReply (decide (resp = EMPTY_DATA_FRAME)) := by
    unfold classify_response
    rw [if_neg hne, if_pos h]
  refine ⟨hcls, ?_, ?_, ?_⟩
  · rw [hcls]
    intro hcontra
    cases hcontra
  · intro hlen
    unfold decode_detection_response
    rw [if_neg (by omega), if_pos h]
  · intro hlen
    unfold decode_detection_response
    rw [if_pos hlen]

/-- Witness for C8: the empty data frame as the reply to `END_CONFIG`. -/
theorem C8_streaming_reply_detected_witness :
    classify_response END_CONFIG EMPTY_DATA_FRAME = .streamingReply true ∧
    decode_detection_response EMPTY_DATA_FRAME = .streamingData := by
  have h := C8_streaming_reply_detected END_CONFIG EMPTY_DATA_FRAME (by decide)
  exact ⟨h.1.trans (by decide), h.2.2.1 (by decide)⟩

/-- Claim C9, counterexample: with no header anywhere and more than 1024
buffered bytes, the buffer is not cleared entirely — `radar_data_reader`
cuts it to its last 100 bytes (`buffer = buffer[-100:]`), which is
nonempty. -/
theorem C9_counterexample :
    find_frame_start (List.replicate 1025 0) = none ∧
    1024 < (List.replicate 1025 (0 : Nat)).length ∧
    radar_data_reader_step (List.replicate 1025 0) =
      .trimmed ((List.replicate 1025 (0 : Nat)).drop 925) ∧
    ((List.replicate 1025 (0 : Nat)).drop 925) ≠ [] := by
  have hscan : ∀ n : Nat, scan_marker FRAME_HEADER (List.replicate n 0) = none := by
    intro n
    induction n with
    | zero => rfl
    | succ m ih =>
      rw [List.replicate_succ, scan_marker, if_neg (by simp [FRAME_HEADER]), ih]
      rfl
  have hfind : find_frame_start (List.replicate 1025 0) = none := hscan 1025
  refine ⟨hfind, by rw [List.length_replicate]; omega, ?_, ?_⟩
  · unfold radar_data_reader_step
    rw [hfind]
    dsimp only
    rw [if_pos (by rw [List.length_replicate]; omega)]
    rw [List.length_replicate]
  · intro hcontra
    have hlen := congrArg List.length hcontra
    rw [List.length_drop, List.length_replicate, List.length_nil] at hlen
    omega

/-- Claim C9 (amended): the no-header policy of `radar_data_reader` fires
when the buffer exceeds 20 bytes (not 1024) and truncates to the last 100
bytes (not clearing entirely; it only actually discards bytes past 100);
with at most 20 header-free bytes nothing is dropped; otherwise bytes leave
the accumulator only through an accepted frame (the candidate span plus the
bytes before the match) or a resynchronization cut (`s + 1` bytes). -/
theorem C9_buffer_policy (b : List Nat) :
    (find_frame_start b = none → b.length ≤ 20 →
      radar_data_reader_step b = .waitNoHeader) ∧
    (find_frame_start b = none → 20 < b.length →
      radar_data_reader_step b = .trimmed (b.drop (b.length - 100)) ∧
      (b.drop (b.length - 100)).length = min b.length 100) ∧
    (∀ s, find_frame_start b = some s →
      (∀ b', radar_data_reader_step b = .resync b' →
        b' = b.drop (s + 1) ∧ b.length - b'.length = s + 1) ∧
      (∀ f b', radar_data_reader_step b = .accepted f b' →
        b' = b.drop (s + full_len b s) ∧
        b.length - b'.length = s + full_len b s)) := by
  refine ⟨?_, ?_, ?_⟩
  · intro hn hle
    unfold radar_data_reader_step
    rw [hn]
    dsimp only
    rw [if_neg (by omega)]
  · intro hn hgt
    unfold radar_data_reader_step
    rw [hn]
    dsimp only
    rw [if_pos hgt]
    refine ⟨rfl, ?_⟩
    rw [List.length_drop]
    omega
  · intro s hs
    constructor
    · intro b' hstep
      unfold radar_data_reader_step at hstep
      rw [hs] at hstep
      dsimp only at hstep
      by_cases h1 : b.length < s + 6
      · rw [if_pos h1] at hstep; cases hstep
      · rw [if_neg h1] at hstep
        by_cases h2 : b.length < s + full_len b s
        · rw [if_pos h2] at hstep; cases hstep
        · rw [if_neg h2] at hstep
          by_cases h3 :
              ((b.drop s).take (full_len b s)).drop (full_len b s - 4) = FRAME_TAIL
          · rw [if_pos h3] at hstep; cases hstep
          · rw [if_neg h3] at hstep
            cases hstep
            refine ⟨rfl, ?_⟩
            rw [List.length_drop]
            omega
    · intro f b' hstep
      unfold radar_data_reader_step at hstep
      rw [hs] at hstep
      dsimp only at hstep
      by_cases h1 : b.length < s + 6
      · rw [if_pos h1] at hstep; cases hstep
      · rw [if_neg h1] at hstep
        by_cases h2 : b.length < s + full_len b s
        · rw [if_pos h2] at hstep; cases hstep
        · rw [if_neg h2] at hstep
          by_cases h3 :
              ((b.drop s).take (full_len b s)).drop (full_len b s - 4) = FRAME_TAIL
          · rw [if_pos h3] at hstep
            cases hstep
            refine ⟨rfl, ?_⟩
            rw [List.length_drop]
            omega
          · rw [if_neg h3] at hstep; cases hstep

/-- Witness for C9: a short header-free buffer waits untouched; a 25-byte
header-free buffer is trimmed (a no-op below 100 bytes, `min 25 100 = 25`);
a corrupted-tail frame triggers the one-byte resynchronization cut. -/
theorem C9_buffer_policy_witness :
    radar_data_reader_step [1, 2, 3] = .waitNoHeader ∧
    radar_data_reader_step (List.replicate 25 7) =
      .trimmed ((List.replicate 25 (7 : Nat)).drop (25 - 100)) ∧
    ((List.replicate 25 (7 : Nat)).drop (25 - 100)).length = min 25 100 ∧
    ([0xF4, 0xF3, 0xF2, 0xF1, 0x00, 0x00, 0xF8, 0xF7, 0xF6, 0x00] : List Nat).length -
      (([0xF4, 0xF3, 0xF2, 0xF1, 0x00, 0x00, 0xF8, 0xF7, 0xF6, 0x00] : List Nat).drop
        (0 + 1)).length = 0 + 1 := by
  refine ⟨(C9_buffer_policy [1, 2, 3]).1 (by decide) (by decide), ?_, ?_, ?_⟩
  · exact ((C9_buffer_policy (List.replicate 25 7)).2.1 (by decide) (by decide)).1
  · exact ((C9_buffer_policy (List.replicate 25 7)).2.1 (by decide) (by decide)).2
  · have h := ((C9_buffer_policy
        [0xF4, 0xF3, 0xF2, 0xF1, 0x00, 0x00, 0xF8, 0xF7, 0xF6, 0x00]).2.2 0
        (by decide)).1
        ([0xF4, 0xF3, 0xF2, 0xF1, 0x00, 0x00, 0xF8, 0xF7, 0xF6, 0x00].drop 1)
        (by decide)
    exact h.2

end HLK
